import Mathlib

/-
Shallow embedding of the veggieAdminPanel backend (an Express + Mongoose
admin REST API) and proofs about its handlers.

Modelling conventions:
- Mongo ObjectIds are modelled as natural numbers.
- JS numbers on record fields are modelled as integers; the proved claims
  depend only on which records are counted, summed or compared, not on the
  numeric carrier.
- Mongoose collections are lists of records; findById / findOne return the
  first record matching the filter; save replaces the record with the same id.
- Handlers take the outcome of zod validation (an Except value) where the
  claims do not depend on the precise zod checks; the zod checks that the
  claims do depend on (the order-status enum, and the min/trim pipeline on
  name fields) are modelled explicitly from the schemas.
- bcrypt.compare is an external library function; adminLogin takes it as an
  explicit functional argument.
- jwt.sign is modelled as a record pairing the signing secret with the
  payload; process.env.JWT_SECRET is an Option String argument.
- Each handler returns a response record carrying the HTTP status, the
  success flag and the optional error string of the JSON body, paired with
  its data payload and the new store state where the handler mutates.
-/

namespace VeggieAdmin

/-! ## String comparison as the document store orders keys (bytewise) -/

def charListLE : List Char → List Char → Bool
  | [], _ => true
  | _ :: _, [] => false
  | a :: as, b :: bs =>
    if a.toNat < b.toNat then true
    else if b.toNat < a.toNat then false
    else charListLE as bs

def strLE (a b : String) : Bool := charListLE a.data b.data

/-- JS String.prototype.trim: strip whitespace from both ends. -/
def jsTrim (str : String) : String :=
  ⟨((str.data.dropWhile Char.isWhitespace).reverse.dropWhile Char.isWhitespace).reverse⟩

/-- JS truthiness of an optional string field: undefined and the empty
string are both falsy. -/
def strTruthy : Option String → Bool
  | none => false
  | some str => str != ""

/-! ## Data model (Mongoose documents) -/

structure Category where
  id : Nat
  name : String
  iconUrl : Option String
  sort : Int
  isActive : Bool
deriving Repr, DecidableEq

structure UnitPrice where
  unit : String
  step : Int
  baseQty : Int
  price : Int
  compareAt : Option Int
  stock : Int
deriving Repr, DecidableEq

structure Product where
  id : Nat
  name : String
  categoryId : Nat
  images : List String
  description : Option String
  unitPrices : List UnitPrice
  rating : Option Int
  isActive : Bool
  createdAt : Int
deriving Repr, DecidableEq

structure Order where
  id : Nat
  userId : Nat
  status : String
  total : Int
  createdAt : Int
deriving Repr, DecidableEq

structure User where
  id : Nat
  name : String
  email : String
  passwordHash : Option String
  role : String
  avatarUrl : Option String
deriving Repr, DecidableEq

structure Store where
  categories : List Category
  products : List Product
  orders : List Order
  users : List User
deriving Repr, DecidableEq

def findCategoryById (s : Store) (id : Nat) : Option Category :=
  s.categories.find? (fun c => c.id == id)

def findCategoryByName (s : Store) (n : String) : Option Category :=
  s.categories.find? (fun c => c.name == n)

def findProductById (s : Store) (id : Nat) : Option Product :=
  s.products.find? (fun p => p.id == id)

def findProductByName (s : Store) (n : String) : Option Product :=
  s.products.find? (fun p => p.name == n)

def findOrderById (s : Store) (id : Nat) : Option Order :=
  s.orders.find? (fun o => o.id == id)

def findUserByEmail (s : Store) (e : String) : Option User :=
  s.users.find? (fun u => u.email == e)

def findUserById (s : Store) (id : Nat) : Option User :=
  s.users.find? (fun u => u.id == id)

/-! ## JSON responses -/

/-- The status code and the shaped part of the JSON body every controller
sends: a success flag, and an error string on failure paths. -/
structure Resp where
  status : Nat
  success : Bool
  error : Option String
deriving Repr, DecidableEq

def ok200 : Resp := ⟨200, true, none⟩

def created201 : Resp := ⟨201, true, none⟩

def errResp (status : Nat) (msg : String) : Resp := ⟨status, false, some msg⟩

/-! ## zod pieces the claims depend on -/

/-- zod pipeline z.string().min(1, msg).trim(): zod runs the min-length
check on the raw string first and applies the trim transform afterwards,
so a whitespace-only input passes the check and parses to the empty
string. -/
def zodMinOneTrim (raw : String) : Except String String :=
  if 1 ≤ raw.length then .ok (jsTrim raw) else .error "Name is required"

/-- The status enum of updateOrderStatusSchema. -/
def orderStatusEnum : List String :=
  ["placed", "confirmed", "preparing", "out_for_delivery", "delivered", "cancelled"]

/-- zod z.enum on the status field of the request body; none models a
missing or non-string field. -/
def parseOrderStatus (body : Option String) : Except String String :=
  match body with
  | none => .error "Required"
  | some st => if orderStatusEnum.contains st then .ok st else .error "Invalid enum value"

/-! ## Category controllers (src/src/controllers/categories.ts) -/

/-- Mongo sort specifier of getCategories: sort ascending, then name
ascending. -/
def categoryLE (a b : Category) : Bool :=
  decide (a.sort < b.sort) || (a.sort == b.sort && strLE a.name b.name)

/-- getCategories: Category.find().sort with keys sort:1, name:1 over the
whole collection. -/
def getCategories (s : Store) : Resp × List Category :=
  (ok200, List.insertionSort (fun a b => categoryLE a b = true) s.categories)

/-- getCategoryById: findById, 404 when missing. -/
def getCategoryById (id : Nat) (s : Store) : Resp × Option Category :=
  match findCategoryById s id with
  | none => (errResp 404 "Category not found", none)
  | some c => (ok200, some c)

/-- The parse result of createCategorySchema (sort defaults to 0 and
isActive to true when absent). -/
structure CreateCategoryInput where
  name : String
  iconUrl : Option String
  sort : Int
  isActive : Bool
deriving Repr, DecidableEq

/-- createCategory: reject on validation error, reject a duplicate name,
otherwise insert (the store generates the new id). -/
def createCategory (parsed : Except String CreateCategoryInput) (newId : Nat)
    (s : Store) : Resp × Store :=
  match parsed with
  | .error msg => (errResp 400 msg, s)
  | .ok d =>
    match findCategoryByName s d.name with
    | some _ => (errResp 400 "Category with this name already exists", s)
    | none =>
      (created201,
        { s with categories := s.categories ++ [⟨newId, d.name, d.iconUrl, d.sort, d.isActive⟩] })

/-- The parse result of updateCategorySchema (every field optional). -/
structure UpdateCategoryInput where
  name : Option String
  iconUrl : Option String
  sort : Option Int
  isActive : Option Bool
deriving Repr, DecidableEq

/-- Object.assign(category, data): fields present in the parsed body
overwrite the document fields. -/
def applyCategoryUpdate (c : Category) (d : UpdateCategoryInput) : Category :=
  { c with
    name := d.name.getD c.name
    iconUrl := match d.iconUrl with | some u => some u | none => c.iconUrl
    sort := d.sort.getD c.sort
    isActive := d.isActive.getD c.isActive }

/-- document.save after mutating the found category document. -/
def saveCategory (s : Store) (c : Category) : Store :=
  { s with categories := s.categories.map (fun x => if x.id == c.id then c else x) }

/-- updateCategory: 404 when missing; the duplicate-name check runs only
when data.name is truthy (nonempty) and differs from the current name, as
in the JS condition data.name and data.name strictly unequal to
category.name; then Object.assign and save. -/
def updateCategory (parsed : Except String UpdateCategoryInput) (id : Nat)
    (s : Store) : Resp × Store :=
  match parsed with
  | .error msg => (errResp 400 msg, s)
  | .ok d =>
    match findCategoryById s id with
    | none => (errResp 404 "Category not found", s)
    | some c =>
      if strTruthy d.name && (d.name != some c.name) then
        match findCategoryByName s (d.name.getD "") with
        | some _ => (errResp 400 "Category with this name already exists", s)
        | none => (ok200, saveCategory s (applyCategoryUpdate c d))
      else (ok200, saveCategory s (applyCategoryUpdate c d))

/-- deleteCategory: 404 when missing, otherwise findByIdAndDelete; no check
for products that reference the category. -/
def deleteCategory (id : Nat) (s : Store) : Resp × Store :=
  match findCategoryById s id with
  | none => (errResp 404 "Category not found", s)
  | some _ =>
    (ok200, { s with categories := s.categories.filter (fun c => c.id != id) })

/-! ## Auth controllers (auth controller and router files) -/

/-- A signed JWT: the signing secret together with the userId payload and
the expiry option (the string _id is modelled by the numeric id). -/
structure Jwt where
  secret : String
  userId : Nat
  expiresIn : String
deriving Repr, DecidableEq

/-- generateTokens: throws when JWT_SECRET is unset, otherwise signs an
access token (1d) and a refresh token (30d) carrying the userId. -/
def generateTokens (jwtSecret : Option String) (userId : Nat) :
    Except String (Jwt × Jwt) :=
  match jwtSecret with
  | none => .error "JWT_SECRET is not configured. Please set JWT_SECRET in your .env file."
  | some sec => .ok (⟨sec, userId, "1d"⟩, ⟨sec, userId, "30d"⟩)

/-- The parse result of adminLoginSchema. -/
structure AdminLoginInput where
  email : String
  password : String
deriving Repr, DecidableEq

/-- adminLogin. The controller checks, in order: zod validation (the catch
block sends 400 Validation error), user lookup by email and a truthy
passwordHash (401), the admin role (403), bcrypt.compare (401); a throw
from generateTokens is caught as 400 Login failed. bcrypt.compare is the
functional argument cmp. -/
def adminLogin (parsed : Except String AdminLoginInput)
    (cmp : String → String → Bool) (jwtSecret : Option String) (s : Store) :
    Resp × Option (Jwt × Jwt) :=
  match parsed with
  | .error _ => (errResp 400 "Validation error", none)
  | .ok d =>
    match findUserByEmail s d.email with
    | none => (errResp 401 "Invalid credentials", none)
    | some u =>
      if !(strTruthy u.passwordHash) then (errResp 401 "Invalid credentials", none)
      else if u.role != "admin" then (errResp 403 "Admin access required", none)
      else if !(cmp d.password (u.passwordHash.getD "")) then
        (errResp 401 "Invalid credentials", none)
      else
        match generateTokens jwtSecret u.id with
        | .error _ => (errResp 400 "Login failed", none)
        | .ok toks => (ok200, some toks)

/-- getAdminProfile: 500 without JWT_SECRET, 401 without a bearer token,
jwt.verify failure (a token signed with a different secret) is caught as
401 Invalid token, a missing user or a non-admin role gives 403. -/
def getAdminProfile (jwtSecret : Option String) (authToken : Option Jwt)
    (s : Store) : Resp :=
  match jwtSecret with
  | none => errResp 500 "JWT_SECRET is not configured"
  | some sec =>
    match authToken with
    | none => errResp 401 "Access token required"
    | some tok =>
      if tok.secret != sec then errResp 401 "Invalid token"
      else
        match findUserById s tok.userId with
        | none => errResp 403 "Admin access required"
        | some u =>
          if u.role != "admin" then errResp 403 "Admin access required" else ok200

/-! ## Order controllers (orders controller file) -/

/-- getAllOrders. Query parameters are taken after parseInt: page and
limit as naturals (defaults 1 and 20), with optional status and userId
filters; the result is sorted by createdAt descending, then paginated with
skip and limit. -/
def getAllOrders (page limit : Nat) (status : Option String)
    (userId : Option Nat) (s : Store) : Resp × List Order :=
  let matching := s.orders.filter (fun o =>
    (match status with | some st => o.status == st | none => true) &&
    (match userId with | some uid => o.userId == uid | none => true))
  let sorted := List.insertionSort (fun a b : Order => b.createdAt ≤ a.createdAt) matching
  (ok200, (sorted.drop ((page - 1) * limit)).take limit)

/-- getOrderById: findById, 404 when missing. -/
def getOrderById (id : Nat) (s : Store) : Resp × Option Order :=
  match findOrderById s id with
  | none => (errResp 404 "Order not found", none)
  | some o => (ok200, some o)

/-- updateOrderStatus: zod-parse the status against the enum (the catch
block sends 400 on a ZodError), 404 when the order is missing, otherwise
set the status and save. -/
def updateOrderStatus (body : Option String) (id : Nat) (s : Store) :
    Resp × Store :=
  match parseOrderStatus body with
  | .error msg => (errResp 400 msg, s)
  | .ok st =>
    match findOrderById s id with
    | none => (errResp 404 "Order not found", s)
    | some o =>
      (ok200,
        { s with orders := s.orders.map (fun x => if x.id == o.id then { x with status := st } else x) })

/-- The data payload of getOrderStats. -/
structure OrderStats where
  totalOrders : Nat
  pendingOrders : Nat
  deliveredOrders : Nat
  cancelledOrders : Nat
  revenue : Int
deriving Repr, DecidableEq

/-- The statuses getOrderStats counts as pending. -/
def pendingStatusList : List String := ["placed", "confirmed", "preparing"]

/-- getOrderStats: countDocuments over all orders, over the pending
statuses, over delivered, over cancelled; revenue aggregates the sum of
total over delivered orders, and the JS code reads the sum out of the
aggregation result only when the result list is nonempty, else 0. -/
def getOrderStats (s : Store) : Resp × OrderStats :=
  let delivered := s.orders.filter (fun o => o.status == "delivered")
  (ok200,
    { totalOrders := s.orders.length
      pendingOrders := (s.orders.filter (fun o => pendingStatusList.contains o.status)).length
      deliveredOrders := delivered.length
      cancelledOrders := (s.orders.filter (fun o => o.status == "cancelled")).length
      revenue := if delivered.length > 0 then (delivered.map (fun o => o.total)).sum else 0 })

/-! ## Product controllers (products controller file) -/

/-- getProducts. Query parameters after parsing: optional category and
isActive filters, and the case-insensitive search regex on name or
description modelled as the predicate argument qMatch built from q;
sorted by createdAt descending, then paginated. A missing description
never matches the search, as a Mongo query on an absent field. -/
def getProducts (category : Option Nat) (qMatch : Option (String → Bool))
    (isActive : Option Bool) (page limit : Nat) (s : Store) :
    Resp × List Product :=
  let matching := s.products.filter (fun p =>
    (match category with | some cid => p.categoryId == cid | none => true) &&
    (match qMatch with
     | some f => f p.name || (match p.description with | some dsc => f dsc | none => false)
     | none => true) &&
    (match isActive with | some b => p.isActive == b | none => true))
  let sorted := List.insertionSort (fun a b : Product => b.createdAt ≤ a.createdAt) matching
  (ok200, (sorted.drop ((page - 1) * limit)).take limit)

/-- getProductById: findById, 404 when missing. -/
def getProductById (id : Nat) (s : Store) : Resp × Option Product :=
  match findProductById s id with
  | none => (errResp 404 "Product not found", none)
  | some p => (ok200, some p)

/-- The parse result of createProductSchema (isActive defaults to true). -/
structure CreateProductInput where
  name : String
  categoryId : Nat
  images : List String
  description : Option String
  unitPrices : List UnitPrice
  rating : Option Int
  isActive : Bool
deriving Repr, DecidableEq

/-- createProduct: reject on validation error, 400 when the referenced
category does not exist, 400 on a duplicate name, otherwise insert. -/
def createProduct (parsed : Except String CreateProductInput) (newId : Nat)
    (now : Int) (s : Store) : Resp × Store :=
  match parsed with
  | .error msg => (errResp 400 msg, s)
  | .ok d =>
    match findCategoryById s d.categoryId with
    | none => (errResp 400 "Category not found", s)
    | some _ =>
      match findProductByName s d.name with
      | some _ => (errResp 400 "Product with this name already exists", s)
      | none =>
        (created201,
          { s with products := s.products ++
              [⟨newId, d.name, d.categoryId, d.images, d.description, d.unitPrices, d.rating, d.isActive, now⟩] })

/-- The parse result of updateProductSchema (every field optional). -/
structure UpdateProductInput where
  name : Option String
  categoryId : Option Nat
  images : Option (List String)
  description : Option String
  unitPrices : Option (List UnitPrice)
  rating : Option Int
  isActive : Option Bool
deriving Repr, DecidableEq

/-- Object.assign(product, data). -/
def applyProductUpdate (p : Product) (d : UpdateProductInput) : Product :=
  { p with
    name := d.name.getD p.name
    categoryId := d.categoryId.getD p.categoryId
    images := d.images.getD p.images
    description := match d.description with | some dsc => some dsc | none => p.description
    unitPrices := d.unitPrices.getD p.unitPrices
    rating := match d.rating with | some r => some r | none => p.rating
    isActive := d.isActive.getD p.isActive }

/-- document.save after mutating the found product document. -/
def saveProduct (s : Store) (p : Product) : Store :=
  { s with products := s.products.map (fun x => if x.id == p.id then p else x) }

/-- updateProduct: 404 when the product is missing; when categoryId is
present the referenced category must exist (else 400); the duplicate-name
check runs only when data.name is truthy (nonempty) and differs from the
current name; then Object.assign and save. -/
def updateProduct (parsed : Except String UpdateProductInput) (id : Nat)
    (s : Store) : Resp × Store :=
  match parsed with
  | .error msg => (errResp 400 msg, s)
  | .ok d =>
    match findProductById s id with
    | none => (errResp 404 "Product not found", s)
    | some p =>
      if (match d.categoryId with
          | some cid => (findCategoryById s cid).isNone
          | none => false) then
        (errResp 400 "Category not found", s)
      else if strTruthy d.name && (d.name != some p.name) then
        match findProductByName s (d.name.getD "") with
        | some _ => (errResp 400 "Product with this name already exists", s)
        | none => (ok200, saveProduct s (applyProductUpdate p d))
      else (ok200, saveProduct s (applyProductUpdate p d))

/-- deleteProduct: 404 when missing, otherwise findByIdAndDelete. -/
def deleteProduct (id : Nat) (s : Store) : Resp × Store :=
  match findProductById s id with
  | none => (errResp 404 "Product not found", s)
  | some _ =>
    (ok200, { s with products := s.products.filter (fun p => p.id != id) })

/-! ## Routers (the four route registration files) -/

inductive Middleware
  | authenticateToken
  | requireAdmin
deriving Repr, DecidableEq

inductive Controller
  | adminLogin | getAdminProfile
  | getProducts | getProductById | createProduct | updateProduct | deleteProduct
  | getCategories | getCategoryById | createCategory | updateCategory | deleteCategory
  | getAllOrders | getOrderStats | getOrderById | updateOrderStatus
deriving Repr, DecidableEq

/-- One express route registration: method, path, the middleware chain in
registration order, and the controller. -/
structure Route where
  method : String
  path : String
  middlewares : List Middleware
  handler : Controller
deriving Repr, DecidableEq

def authRoutes : List Route :=
  [⟨"POST", "/login", [], .adminLogin⟩,
   ⟨"GET", "/me", [.authenticateToken, .requireAdmin], .getAdminProfile⟩]

def productRoutes : List Route :=
  [⟨"GET", "/", [.authenticateToken, .requireAdmin], .getProducts⟩,
   ⟨"GET", "/:id", [.authenticateToken, .requireAdmin], .getProductById⟩,
   ⟨"POST", "/", [.authenticateToken, .requireAdmin], .createProduct⟩,
   ⟨"PUT", "/:id", [.authenticateToken, .requireAdmin], .updateProduct⟩,
   ⟨"DELETE", "/:id", [.authenticateToken, .requireAdmin], .deleteProduct⟩]

def categoryRoutes : List Route :=
  [⟨"GET", "/", [.authenticateToken, .requireAdmin], .getCategories⟩,
   ⟨"GET", "/:id", [.authenticateToken, .requireAdmin], .getCategoryById⟩,
   ⟨"POST", "/", [.authenticateToken, .requireAdmin], .createCategory⟩,
   ⟨"PUT", "/:id", [.authenticateToken, .requireAdmin], .updateCategory⟩,
   ⟨"DELETE", "/:id", [.authenticateToken, .requireAdmin], .deleteCategory⟩]

def orderRoutes : List Route :=
  [⟨"GET", "/", [.authenticateToken, .requireAdmin], .getAllOrders⟩,
   ⟨"GET", "/stats", [.authenticateToken, .requireAdmin], .getOrderStats⟩,
   ⟨"GET", "/:id", [.authenticateToken, .requireAdmin], .getOrderById⟩,
   ⟨"PATCH", "/:id/status", [.authenticateToken, .requireAdmin], .updateOrderStatus⟩]

def allRoutes : List Route :=
  authRoutes ++ productRoutes ++ categoryRoutes ++ orderRoutes

/-! ## Store invariants the spec names -/

/-- No two categories share a name. -/
def catNamesNodup (s : Store) : Prop := (s.categories.map Category.name).Nodup

/-- No two products share a name. -/
def prodNamesNodup (s : Store) : Prop := (s.products.map Product.name).Nodup

/-- No two categories share a document id (the store generates unique ids). -/
def catIdsNodup (s : Store) : Prop := (s.categories.map Category.id).Nodup

/-- No two products share a document id. -/
def prodIdsNodup (s : Store) : Prop := (s.products.map Product.id).Nodup

/-- No two users share an email. -/
def emailsNodup (s : Store) : Prop := (s.users.map User.email).Nodup

/-- Every stored product references an existing category. -/
def fkHolds (s : Store) : Prop :=
  ∀ p ∈ s.products, ∃ c ∈ s.categories, c.id = p.categoryId

/-- Executable form of fkHolds. -/
def fkCheck (s : Store) : Bool :=
  s.products.all (fun p => s.categories.any (fun c => c.id == p.categoryId))

theorem fkCheck_iff (s : Store) : fkCheck s = true ↔ fkHolds s := by
  simp [fkCheck, fkHolds, List.all_eq_true, List.any_eq_true, beq_iff_eq]

/-- A status code in the 2xx range. -/
def is2xx (n : Nat) : Bool := decide (200 ≤ n) && decide (n < 300)

/-- The response shape every controller promises: the success flag is true
exactly on 2xx statuses, and any non-success response carries an error
string. -/
def shapedResp (r : Resp) : Bool :=
  (r.success == is2xx r.status) && (r.success || r.error.isSome)

/-! ## Concrete stores used by witnesses and counterexamples -/

/-- One placed order; used to witness the order-status claim. -/
def orderStoreA : Store := ⟨[], [], [⟨1, 5, "placed", 10, 0⟩], []⟩

/-- The empty store; used to witness the update-atomicity claim. -/
def emptyStore : Store := ⟨[], [], [], []⟩

/-- Two categories with distinct names, one of them named by the empty
string; exhibits the empty-name bypass of the duplicate check. -/
def dupNameStore : Store :=
  ⟨[⟨1, "", none, 0, true⟩, ⟨2, "x", none, 0, true⟩], [], [], []⟩

/-- One category referenced by one product; exhibits the dangling
reference left by deleteCategory. -/
def danglingFkStore : Store :=
  ⟨[⟨1, "veg", none, 0, true⟩],
   [⟨10, "carrot", 1, ["img"], none, [⟨"kg", 1, 1, 4, none, 3⟩], none, true, 0⟩],
   [], []⟩

/-- One non-admin user with a password hash; exhibits the 403 sent on a
wrong password for a non-admin account. -/
def customerStore : Store :=
  ⟨[], [], [], [⟨1, "Bob", "bob@x.com", some "secret", "customer", none⟩]⟩

/-- One admin user; used to witness the login claim. -/
def adminStore : Store :=
  ⟨[], [], [], [⟨1, "Ada", "ada@x.com", some "pw", "admin", none⟩]⟩

/-! ## Order and totality facts about the sort comparators -/

theorem charListLE_total : ∀ as bs, charListLE as bs = true ∨ charListLE bs as = true := by
  intro as
  induction as with
  | nil => intro bs; left; rfl
  | cons a as ih =>
    intro bs
    cases bs with
    | nil => right; rfl
    | cons b bs =>
      simp only [charListLE]
      by_cases h1 : a.toNat < b.toNat
      · left; simp [h1]
      · by_cases h2 : b.toNat < a.toNat
        · right; simp [h1, h2]
        · rcases ih bs with h | h
          · left; simp [h1, h2, h]
          · right; simp [h1, h2, h]

theorem charListLE_trans :
    ∀ as bs cs, charListLE as bs = true → charListLE bs cs = true →
      charListLE as cs = true := by
  intro as
  induction as with
  | nil => intro bs cs _ _; rfl
  | cons a as ih =>
    intro bs cs hab hbc
    cases bs with
    | nil => simp [charListLE] at hab
    | cons b bs =>
      cases cs with
      | nil => simp [charListLE] at hbc
      | cons c cs =>
        simp only [charListLE] at hab hbc ⊢
        rcases Nat.lt_trichotomy a.toNat b.toNat with h1 | h1 | h1
        · rcases Nat.lt_trichotomy b.toNat c.toNat with h2 | h2 | h2
          · simp [show a.toNat < c.toNat by omega]
          · simp [show a.toNat < c.toNat by omega]
          · simp [show ¬ b.toNat < c.toNat by omega, h2] at hbc
        · have hab2 : charListLE as bs = true := by
            simpa [show ¬ a.toNat < b.toNat by omega,
              show ¬ b.toNat < a.toNat by omega] using hab
          rcases Nat.lt_trichotomy b.toNat c.toNat with h2 | h2 | h2
          · simp [show a.toNat < c.toNat by omega]
          · have hbc2 : charListLE bs cs = true := by
              simpa [show ¬ b.toNat < c.toNat by omega,
                show ¬ c.toNat < b.toNat by omega] using hbc
            simp [show ¬ a.toNat < c.toNat by omega,
              show ¬ c.toNat < a.toNat by omega, ih bs cs hab2 hbc2]
          · simp [show ¬ b.toNat < c.toNat by omega, h2] at hbc
        · simp [show ¬ a.toNat < b.toNat by omega, h1] at hab

theorem strLE_total (a b : String) : strLE a b = true ∨ strLE b a = true :=
  charListLE_total a.data b.data

theorem strLE_trans (a b c : String) :
    strLE a b = true → strLE b c = true → strLE a c = true :=
  charListLE_trans a.data b.data c.data

instance : IsTotal Category (fun a b => categoryLE a b = true) := by
  constructor
  intro a b
  simp only [categoryLE, Bool.or_eq_true, Bool.and_eq_true, decide_eq_true_eq, beq_iff_eq]
  rcases lt_trichotomy a.sort b.sort with h | h | h
  · left; left; exact h
  · rcases strLE_total a.name b.name with hs | hs
    · left; right; exact ⟨h, hs⟩
    · right; right; exact ⟨h.symm, hs⟩
  · right; left; exact h

instance : IsTrans Category (fun a b => categoryLE a b = true) := by
  constructor
  intro a b c hab hbc
  simp only [categoryLE, Bool.or_eq_true, Bool.and_eq_true, decide_eq_true_eq,
    beq_iff_eq] at hab hbc ⊢
  rcases hab with h1 | ⟨h1, hs1⟩
  · rcases hbc with h2 | ⟨h2, _⟩
    · left; omega
    · left; omega
  · rcases hbc with h2 | ⟨h2, hs2⟩
    · left; omega
    · right; exact ⟨h1.trans h2, strLE_trans _ _ _ hs1 hs2⟩

/-! ## Claim C5 -/

/-- C5: every registered route of the categories, products and orders
routers, and GET /me of the auth router, carries exactly the middleware
chain authenticateToken then requireAdmin; the only route registered
without that chain is POST /login handled by adminLogin, which has no
middleware at all. -/
theorem routes_all_guarded :
    (allRoutes.all (fun rt =>
      rt.middlewares == [.authenticateToken, .requireAdmin] ||
      (rt.method == "POST" && rt.path == "/login" &&
        rt.handler == .adminLogin && rt.middlewares == []))) = true ∧
    allRoutes.filter
        (fun rt => rt.middlewares != [.authenticateToken, .requireAdmin]) =
      [⟨"POST", "/login", [], Controller.adminLogin⟩] := by
  constructor <;> rfl

/-! ## Claim C7 -/

/-- C7: getCategories responds 200 with the full category collection
(a permutation of the stored list, so no pagination and no filtering) in
ascending order of the sort field with ties broken by ascending name, the
order expressed by the comparator categoryLE. -/
theorem getCategories_sorted_unfiltered (s : Store) :
    (getCategories s).1 = ok200 ∧
    (getCategories s).2.Perm s.categories ∧
    (getCategories s).2.Sorted (fun a b => categoryLE a b = true) :=
  ⟨rfl, List.perm_insertionSort _ _, List.sorted_insertionSort _ _⟩

/-! ## Claim C2 -/

theorem parseOrderStatus_ok {body : Option String} {st : String}
    (h : parseOrderStatus body = .ok st) : orderStatusEnum.contains st = true := by
  cases body with
  | none => exact Except.noConfusion h
  | some raw =>
    simp only [parseOrderStatus] at h
    by_cases hc : orderStatusEnum.contains raw = true
    · rw [if_pos hc] at h
      injection h with h
      exact h ▸ hc
    · rw [if_neg hc] at h
      exact Except.noConfusion h

/-- C2: updateOrderStatus changes an order status only to a member of the
zod enum; a request whose status field is missing or outside the enum gets
a 400 response and leaves the store unchanged; consequently the endpoint
preserves the invariant that every stored order status lies in the enum. -/
theorem updateOrderStatus_enum_constrained (body : Option String) (id : Nat) (s : Store) :
    (∀ st, body = some st → orderStatusEnum.contains st = false →
      (updateOrderStatus body id s).1.status = 400 ∧
      (updateOrderStatus body id s).2 = s) ∧
    (body = none →
      (updateOrderStatus body id s).1.status = 400 ∧
      (updateOrderStatus body id s).2 = s) ∧
    (∀ o ∈ (updateOrderStatus body id s).2.orders,
      orderStatusEnum.contains o.status = true ∨ o ∈ s.orders) ∧
    ((∀ o ∈ s.orders, orderStatusEnum.contains o.status = true) →
      ∀ o ∈ (updateOrderStatus body id s).2.orders,
        orderStatusEnum.contains o.status = true) := by
  have hmain : ∀ o ∈ (updateOrderStatus body id s).2.orders,
      orderStatusEnum.contains o.status = true ∨ o ∈ s.orders := by
    intro o ho
    cases hp : parseOrderStatus body with
    | error m =>
      simp only [updateOrderStatus, hp] at ho
      exact Or.inr ho
    | ok st =>
      simp only [updateOrderStatus, hp] at ho
      cases hf : findOrderById s id with
      | none => simp only [hf] at ho; exact Or.inr ho
      | some od =>
        simp only [hf] at ho
        simp only [List.mem_map] at ho
        obtain ⟨x, hx, hfx⟩ := ho
        by_cases hid : (x.id == od.id) = true
        · rw [if_pos hid] at hfx
          left
          rw [← hfx]
          exact parseOrderStatus_ok hp
        · rw [if_neg hid] at hfx
          exact Or.inr (hfx ▸ hx)
  refine ⟨?_, ?_, hmain, ?_⟩
  · intro st hb hc
    subst hb
    have hmem : st ∉ orderStatusEnum := by simpa using hc
    simp [updateOrderStatus, parseOrderStatus, hmem, errResp]
  · intro hb
    subst hb
    exact ⟨rfl, rfl⟩
  · intro henum o ho
    rcases hmain o ho with h | h
    · exact h
    · exact henum o h

theorem updateOrderStatus_enum_constrained_witness :
    (updateOrderStatus (some "shipped") 1 orderStoreA).1.status = 400 ∧
    (updateOrderStatus (some "shipped") 1 orderStoreA).2 = orderStoreA :=
  (updateOrderStatus_enum_constrained (some "shipped") 1 orderStoreA).1
    "shipped" rfl (by decide)

/-! ## Claim C8 -/

/-- C8: whenever updateCategory, updateProduct or updateOrderStatus
responds with status 400 or 404, the store is exactly what it was before
the request: every save is reached only after all checks have passed. -/
theorem updates_atomic_on_error :
    (∀ p id s, ((updateCategory p id s).1.status = 400 ∨
        (updateCategory p id s).1.status = 404) →
      (updateCategory p id s).2 = s) ∧
    (∀ p id s, ((updateProduct p id s).1.status = 400 ∨
        (updateProduct p id s).1.status = 404) →
      (updateProduct p id s).2 = s) ∧
    (∀ b id s, ((updateOrderStatus b id s).1.status = 400 ∨
        (updateOrderStatus b id s).1.status = 404) →
      (updateOrderStatus b id s).2 = s) := by
  refine ⟨?_, ?_, ?_⟩
  · intro p id s h
    rcases p with m | d
    · rfl
    · simp only [updateCategory] at h ⊢
      cases hf : findCategoryById s id with
      | none => simp [hf]
      | some c =>
        simp only [hf] at h ⊢
        by_cases hb : (strTruthy d.name && (d.name != some c.name)) = true
        · simp only [if_pos hb] at h ⊢
          cases hn : findCategoryByName s (d.name.getD "") with
          | none => simp [hn, ok200] at h
          | some c2 => simp [hn]
        · simp only [if_neg hb] at h
          simp [ok200] at h
  · intro p id s h
    rcases p with m | d
    · rfl
    · simp only [updateProduct] at h ⊢
      cases hf : findProductById s id with
      | none => simp [hf]
      | some pr =>
        simp only [hf] at h ⊢
        by_cases hcat : (match d.categoryId with
            | some cid => (findCategoryById s cid).isNone
            | none => false) = true
        · simp only [if_pos hcat]
        · simp only [if_neg hcat] at h ⊢
          by_cases hb : (strTruthy d.name && (d.name != some pr.name)) = true
          · simp only [if_pos hb] at h ⊢
            cases hn : findProductByName s (d.name.getD "") with
            | none => simp [hn, ok200] at h
            | some p2 => simp [hn]
          · simp only [if_neg hb] at h
            simp [ok200] at h
  · intro b id s h
    cases hp : parseOrderStatus b with
    | error m => simp only [updateOrderStatus, hp]
    | ok st =>
      simp only [updateOrderStatus, hp] at h ⊢
      cases hf : findOrderById s id with
      | none => simp [hf]
      | some od =>
        simp only [hf] at h
        simp [ok200] at h

theorem updates_atomic_on_error_witness :
    (updateCategory (.ok ⟨none, none, none, none⟩) 1 emptyStore).2 = emptyStore :=
  updates_atomic_on_error.1 (.ok ⟨none, none, none, none⟩) 1 emptyStore
    (Or.inr (by decide))

/-! ## Claim C9 -/

theorem countP_statuses_le_length (l : List Order) :
    l.countP (fun o => pendingStatusList.contains o.status) +
    l.countP (fun o => o.status == "delivered") +
    l.countP (fun o => o.status == "cancelled") +
    l.countP (fun o => o.status == "out_for_delivery") ≤ l.length := by
  induction l with
  | nil => simp
  | cons o l ih =>
    simp only [List.countP_cons, List.length_cons]
    have hind : ((if pendingStatusList.contains o.status then 1 else 0) : Nat) +
        (if o.status == "delivered" then 1 else 0) +
        (if o.status == "cancelled" then 1 else 0) +
        (if o.status == "out_for_delivery" then 1 else 0) ≤ 1 := by
      by_cases h2 : (o.status == "delivered") = true
      · have he : o.status = "delivered" := by simpa using h2
        simp only [he]; decide
      · by_cases h3 : (o.status == "cancelled") = true
        · have he : o.status = "cancelled" := by simpa using h3
          simp only [he]; decide
        · by_cases h4 : (o.status == "out_for_delivery") = true
          · have he : o.status = "out_for_delivery" := by simpa using h4
            simp only [he]; decide
          · rw [Bool.not_eq_true] at h2 h3 h4
            rw [h2, h3, h4]
            by_cases hp : pendingStatusList.contains o.status = true
            · rw [hp]; decide
            · rw [Bool.not_eq_true] at hp
              rw [hp]; decide
    omega

/-- C9: getOrderStats reports the number of all stored orders, the count
of orders with a pending status (placed, confirmed or preparing), the
delivered and cancelled counts, and as revenue the sum of the total field
over delivered orders (0 when there are none); the three sub-counts plus
the out-for-delivery count never exceed the total, so out-for-delivery
orders are counted in totalOrders and in none of the sub-counts. -/
theorem getOrderStats_correct (s : Store) :
    (getOrderStats s).1 = ok200 ∧
    (getOrderStats s).2.totalOrders = s.orders.length ∧
    (getOrderStats s).2.pendingOrders =
      s.orders.countP (fun o => pendingStatusList.contains o.status) ∧
    (getOrderStats s).2.deliveredOrders =
      s.orders.countP (fun o => o.status == "delivered") ∧
    (getOrderStats s).2.cancelledOrders =
      s.orders.countP (fun o => o.status == "cancelled") ∧
    (getOrderStats s).2.revenue =
      ((s.orders.filter (fun o => o.status == "delivered")).map (fun o => o.total)).sum ∧
    (getOrderStats s).2.pendingOrders + (getOrderStats s).2.deliveredOrders +
      (getOrderStats s).2.cancelledOrders +
      s.orders.countP (fun o => o.status == "out_for_delivery") ≤
      (getOrderStats s).2.totalOrders := by
  refine ⟨rfl, rfl, ?_, ?_, ?_, ?_, ?_⟩
  · simp [getOrderStats, List.countP_eq_length_filter]
  · simp [getOrderStats, List.countP_eq_length_filter]
  · simp [getOrderStats, List.countP_eq_length_filter]
  · by_cases h : (s.orders.filter (fun o => o.status == "delivered")) = []
    · simp [getOrderStats, h]
    · have hlen : 0 < (s.orders.filter (fun o => o.status == "delivered")).length :=
        List.length_pos.mpr h
      simp [getOrderStats, hlen]
  · simp only [getOrderStats, List.countP_eq_length_filter]
    exact le_of_le_of_eq
      (by simpa [List.countP_eq_length_filter] using countP_statuses_le_length s.orders) rfl

/-! ## Claim C6 -/

theorem shaped_ok200 : shapedResp ok200 = true := rfl

theorem shaped_created201 : shapedResp created201 = true := rfl

theorem shaped_err400 (m : String) : shapedResp (errResp 400 m) = true := rfl

theorem shaped_err401 (m : String) : shapedResp (errResp 401 m) = true := rfl

theorem shaped_err403 (m : String) : shapedResp (errResp 403 m) = true := rfl

theorem shaped_err404 (m : String) : shapedResp (errResp 404 m) = true := rfl

theorem shaped_err500 (m : String) : shapedResp (errResp 500 m) = true := rfl

/-- C6: every controller of the embedding responds with a body whose
success flag is true exactly when the HTTP status is 2xx, and whose error
field carries a string whenever success is false. -/
theorem every_handler_shaped :
    (∀ s, shapedResp (getCategories s).1 = true) ∧
    (∀ id s, shapedResp (getCategoryById id s).1 = true) ∧
    (∀ p newId s, shapedResp (createCategory p newId s).1 = true) ∧
    (∀ p id s, shapedResp (updateCategory p id s).1 = true) ∧
    (∀ id s, shapedResp (deleteCategory id s).1 = true) ∧
    (∀ p cmp sec s, shapedResp (adminLogin p cmp sec s).1 = true) ∧
    (∀ sec tok s, shapedResp (getAdminProfile sec tok s) = true) ∧
    (∀ page limit st uid s, shapedResp (getAllOrders page limit st uid s).1 = true) ∧
    (∀ id s, shapedResp (getOrderById id s).1 = true) ∧
    (∀ b id s, shapedResp (updateOrderStatus b id s).1 = true) ∧
    (∀ s, shapedResp (getOrderStats s).1 = true) ∧
    (∀ c q act page limit s, shapedResp (getProducts c q act page limit s).1 = true) ∧
    (∀ id s, shapedResp (getProductById id s).1 = true) ∧
    (∀ p newId now s, shapedResp (createProduct p newId now s).1 = true) ∧
    (∀ p id s, shapedResp (updateProduct p id s).1 = true) ∧
    (∀ id s, shapedResp (deleteProduct id s).1 = true) := by
  refine ⟨?_, ?_, ?_, ?_, ?_, ?_, ?_, ?_, ?_, ?_, ?_, ?_, ?_, ?_, ?_, ?_⟩
  · intro s; rfl
  · intro id s
    cases h : findCategoryById s id <;>
      simp [getCategoryById, h, shaped_ok200, shaped_err404]
  · intro p newId s
    rcases p with m | d
    · exact shaped_err400 m
    · cases h : findCategoryByName s d.name <;>
        simp [createCategory, h, shaped_created201, shaped_err400]
  · intro p id s
    rcases p with m | d
    · exact shaped_err400 m
    · cases h : findCategoryById s id with
      | none => simp [updateCategory, h, shaped_err404]
      | some c =>
        by_cases hb : (strTruthy d.name && (d.name != some c.name)) = true
        · cases h2 : findCategoryByName s (d.name.getD "") <;>
            simp [updateCategory, h, hb, h2, shaped_ok200, shaped_err400]
        · simp [updateCategory, h, hb, shaped_ok200]
  · intro id s
    cases h : findCategoryById s id <;>
      simp [deleteCategory, h, shaped_ok200, shaped_err404]
  · intro p cmp sec s
    rcases p with m | d
    · exact shaped_err400 "Validation error"
    · cases h : findUserByEmail s d.email with
      | none => simp [adminLogin, h, shaped_err401]
      | some u =>
        by_cases h1 : (!(strTruthy u.passwordHash)) = true
        · simp [adminLogin, h, h1, shaped_err401]
        · by_cases h2 : (u.role != "admin") = true
          · simp [adminLogin, h, h1, h2, shaped_err403]
          · by_cases h3 : (!(cmp d.password (u.passwordHash.getD ""))) = true
            · simp [adminLogin, h, h1, h2, h3, shaped_err401]
            · cases sec <;>
                simp [adminLogin, generateTokens, h, h1, h2, h3,
                  shaped_ok200, shaped_err400]
  · intro sec tok s
    cases sec with
    | none => rfl
    | some sc =>
      cases tok with
      | none => rfl
      | some t =>
        by_cases h1 : (t.secret != sc) = true
        · simp [getAdminProfile, h1, shaped_err401]
        · cases h2 : findUserById s t.userId with
          | none => simp [getAdminProfile, h1, h2, shaped_err403]
          | some u =>
            by_cases h3 : (u.role != "admin") = true
            · simp [getAdminProfile, h1, h2, h3, shaped_err403]
            · simp [getAdminProfile, h1, h2, h3, shaped_ok200]
  · intro page limit st uid s; rfl
  · intro id s
    cases h : findOrderById s id <;>
      simp [getOrderById, h, shaped_ok200, shaped_err404]
  · intro b id s
    cases hp : parseOrderStatus b with
    | error m => simp [updateOrderStatus, hp, shaped_err400]
    | ok st =>
      cases h : findOrderById s id <;>
        simp [updateOrderStatus, hp, h, shaped_ok200, shaped_err404]
  · intro s; rfl
  · intro c q act page limit s; rfl
  · intro id s
    cases h : findProductById s id <;>
      simp [getProductById, h, shaped_ok200, shaped_err404]
  · intro p newId now s
    rcases p with m | d
    · exact shaped_err400 m
    · cases h : findCategoryById s d.categoryId with
      | none => simp [createProduct, h, shaped_err400]
      | some c =>
        cases h2 : findProductByName s d.name <;>
          simp [createProduct, h, h2, shaped_created201, shaped_err400]
  · intro p id s
    rcases p with m | d
    · exact shaped_err400 m
    · cases h : findProductById s id with
      | none => simp [updateProduct, h, shaped_err404]
      | some pr =>
        by_cases hcat : (match d.categoryId with
            | some cid => (findCategoryById s cid).isNone
            | none => false) = true
        · simp [updateProduct, h, hcat, shaped_err400]
        · by_cases hb : (strTruthy d.name && (d.name != some pr.name)) = true
          · cases h2 : findProductByName s (d.name.getD "") <;>
              simp [updateProduct, h, hcat, hb, h2, shaped_ok200, shaped_err400]
          · simp [updateProduct, h, hcat, hb, shaped_ok200]
  · intro id s
    cases h : findProductById s id <;>
      simp [deleteProduct, h, shaped_ok200, shaped_err404]

/-! ## Claim C1 -/

theorem not_mem_map_of_find?_none {α : Type} {l : List α} {f : α → String} {n : String}
    (h : l.find? (fun x => f x == n) = none) : n ∉ l.map f := by
  rw [List.find?_eq_none] at h
  intro hmem
  rw [List.mem_map] at hmem
  obtain ⟨x, hx, hfx⟩ := hmem
  exact h x hx (by simp [hfx])

/-- Replacing the value at one key of a keyed list by a fresh value keeps
the mapped values duplicate-free. -/
theorem nodup_map_keyed_update {α β : Type} (l : List α) (key : α → Nat) (f : α → β)
    (k : Nat) (b : β) (hk : (l.map key).Nodup) (hf : (l.map f).Nodup)
    (hb : b ∉ l.map f) :
    (l.map (fun x => if key x == k then b else f x)).Nodup := by
  induction l with
  | nil => simp
  | cons x l ih =>
    simp only [List.map_cons, List.nodup_cons] at hk hf ⊢
    simp only [List.map_cons, List.mem_cons] at hb
    push_neg at hb
    obtain ⟨hbx, hbl⟩ := hb
    by_cases hx : (key x == k) = true
    · rw [if_pos hx]
      have htail : l.map (fun y => if key y == k then b else f y) = l.map f := by
        apply List.map_congr_left
        intro y hy
        have hky : ¬ (key y == k) = true := by
          intro hyk
          apply hk.1
          have h1 : key y = k := by simpa using hyk
          have h2 : key x = k := by simpa using hx
          exact (h1.trans h2.symm) ▸ List.mem_map_of_mem key hy
        rw [if_neg hky]
      rw [htail]
      exact ⟨hbl, hf.2⟩
    · rw [if_neg hx]
      refine ⟨?_, ih hk.2 hf.2 hbl⟩
      intro hmem
      rw [List.mem_map] at hmem
      obtain ⟨y, hy, hfy⟩ := hmem
      by_cases hyk : (key y == k) = true
      · rw [if_pos hyk] at hfy
        exact hbx hfy
      · rw [if_neg hyk] at hfy
        exact hf.1 (hfy ▸ List.mem_map_of_mem f hy)

/-- C1 counterexample: zod parses the whitespace-only name to the empty
string, which is falsy in JS, so updateCategory skips the duplicate-name
check and renames category 2 to the empty name already held by
category 1 — a 200 response that breaks name-distinctness. -/
theorem updateCategory_empty_name_breaks_uniqueness :
    zodMinOneTrim " " = .ok "" ∧
    catNamesNodup dupNameStore ∧
    (updateCategory (.ok ⟨some "", none, none, none⟩) 2 dupNameStore).1.status = 200 ∧
    ¬ catNamesNodup (updateCategory (.ok ⟨some "", none, none, none⟩) 2 dupNameStore).2 := by
  refine ⟨rfl, ?_, by decide, ?_⟩
  · unfold catNamesNodup
    decide
  · unfold catNamesNodup
    decide

/-- C1 (amended): createCategory inserts only when no existing category
holds the submitted name, otherwise responding 400 without inserting, and
always preserves name-distinctness; updateCategory rejects with 400 a
nonempty new name held by another category, and preserves
name-distinctness whenever the parsed name is not the empty string (the
empty string, which zod can produce from whitespace, bypasses the check);
deleteCategory preserves name-distinctness; and the analogous statements
hold for createProduct, updateProduct and deleteProduct. Ids are assumed
duplicate-free, as the store generates them. -/
theorem name_uniqueness_preserved :
    (∀ p newId s, catNamesNodup s → catNamesNodup (createCategory p newId s).2) ∧
    (∀ d newId s, (∃ c ∈ s.categories, c.name = d.name) →
      (createCategory (Except.ok d) newId s).1 =
        errResp 400 "Category with this name already exists" ∧
      (createCategory (Except.ok d) newId s).2 = s) ∧
    (∀ p id s, catIdsNodup s → catNamesNodup s →
      (∀ d n, p = Except.ok d → d.name = some n → n ≠ "") →
      catNamesNodup (updateCategory p id s).2) ∧
    (∀ d id s c n, findCategoryById s id = some c → d.name = some n → n ≠ "" →
      n ≠ c.name → (∃ c2 ∈ s.categories, c2.name = n) →
      (updateCategory (Except.ok d) id s).1 =
        errResp 400 "Category with this name already exists" ∧
      (updateCategory (Except.ok d) id s).2 = s) ∧
    (∀ id s, catNamesNodup s → catNamesNodup (deleteCategory id s).2) ∧
    (∀ p newId now s, prodNamesNodup s → prodNamesNodup (createProduct p newId now s).2) ∧
    (∀ d newId now s, (∃ p2 ∈ s.products, p2.name = d.name) →
      (findCategoryById s d.categoryId).isSome = true →
      (createProduct (Except.ok d) newId now s).1 =
        errResp 400 "Product with this name already exists" ∧
      (createProduct (Except.ok d) newId now s).2 = s) ∧
    (∀ p id s, prodIdsNodup s → prodNamesNodup s →
      (∀ d n, p = Except.ok d → d.name = some n → n ≠ "") →
      prodNamesNodup (updateProduct p id s).2) ∧
    (∀ id s, prodNamesNodup s → prodNamesNodup (deleteProduct id s).2) := by
  have hkeyed : ∀ (s : Store) (c : Category) (d : UpdateCategoryInput),
      catIdsNodup s → catNamesNodup s →
      (applyCategoryUpdate c d).name ∉ s.categories.map Category.name →
      catNamesNodup (saveCategory s (applyCategoryUpdate c d)) := by
    intro s c d hids hnames hnotin
    unfold catNamesNodup saveCategory
    rw [List.map_map]
    have hcomp : (Category.name ∘ fun x =>
        if x.id == (applyCategoryUpdate c d).id then applyCategoryUpdate c d else x) =
        (fun x => if x.id == (applyCategoryUpdate c d).id
          then (applyCategoryUpdate c d).name else x.name) := by
      funext x
      by_cases hx : (x.id == (applyCategoryUpdate c d).id) = true
      · simp [Function.comp, hx]
      · simp [Function.comp, hx]
    rw [hcomp]
    exact nodup_map_keyed_update s.categories Category.id Category.name _ _ hids hnames hnotin
  have hsame : ∀ (s : Store) (c : Category) (d : UpdateCategoryInput),
      catIdsNodup s → catNamesNodup s → c ∈ s.categories →
      (applyCategoryUpdate c d).name = c.name →
      catNamesNodup (saveCategory s (applyCategoryUpdate c d)) := by
    intro s c d hids hnames hmem hname
    unfold catNamesNodup saveCategory
    rw [List.map_map]
    have heq : s.categories.map (Category.name ∘ fun x =>
        if x.id == (applyCategoryUpdate c d).id then applyCategoryUpdate c d else x) =
        s.categories.map Category.name := by
      apply List.map_congr_left
      intro x hx
      by_cases hxid : (x.id == (applyCategoryUpdate c d).id) = true
      · have hid2 : x.id = c.id := by simpa [applyCategoryUpdate] using hxid
        have hxc : x = c := List.inj_on_of_nodup_map hids hx hmem hid2
        have hidp : (applyCategoryUpdate c d).id = c.id := rfl
        simp [Function.comp, hxid, hxc, hidp, hname]
      · simp [Function.comp, hxid]
    rw [heq]
    exact hnames
  refine ⟨?_, ?_, ?_, ?_, ?_, ?_, ?_, ?_, ?_⟩
  · -- createCategory preserves distinct names
    intro p newId s hnames
    rcases p with m | d
    · exact hnames
    · cases hfn : findCategoryByName s d.name with
      | some c => simpa [createCategory, hfn] using hnames
      | none =>
        simp only [createCategory, hfn]
        unfold catNamesNodup
        simp only [List.map_append, List.map_cons, List.map_nil]
        rw [List.nodup_append]
        refine ⟨hnames, List.nodup_singleton _, ?_⟩
        intro x hx hmem
        simp only [List.mem_singleton] at hmem
        subst hmem
        exact (not_mem_map_of_find?_none hfn) hx
  · -- createCategory rejects a duplicate name
    intro d newId s hdup
    cases hfn : findCategoryByName s d.name with
    | none =>
      exfalso
      obtain ⟨c, hc, hname⟩ := hdup
      rw [findCategoryByName, List.find?_eq_none] at hfn
      exact hfn c hc (by simp [hname])
    | some c => simp [createCategory, hfn]
  · -- updateCategory preserves distinct names when the parsed name is nonempty
    intro p id s hids hnames hprov
    rcases p with m | d
    · exact hnames
    · cases hf : findCategoryById s id with
      | none => simpa [updateCategory, hf] using hnames
      | some c =>
        simp only [updateCategory, hf]
        by_cases hb : (strTruthy d.name && (d.name != some c.name)) = true
        · rw [if_pos hb]
          obtain ⟨n, hn⟩ : ∃ n, d.name = some n := by
            cases hdn : d.name
            · rw [hdn] at hb; simp [strTruthy] at hb
            · exact ⟨_, rfl⟩
          cases hfn : findCategoryByName s (d.name.getD "") with
          | some c2 => exact hnames
          | none =>
            have hname2 : (applyCategoryUpdate c d).name = n := by
              simp [applyCategoryUpdate, hn]
            refine hkeyed s c d hids hnames ?_
            rw [hname2]
            rw [hn] at hfn
            simpa using not_mem_map_of_find?_none hfn
        · rw [if_neg hb]
          have hname2 : (applyCategoryUpdate c d).name = c.name := by
            cases hdn : d.name with
            | none => simp [applyCategoryUpdate, hdn]
            | some n =>
              have hne : n ≠ "" := hprov d n rfl hdn
              rw [hdn] at hb
              have : n = c.name := by
                by_contra hcontra
                apply hb
                simp [strTruthy, hne, hcontra]
              simp [applyCategoryUpdate, hdn, this]
          exact hsame s c d hids hnames (List.mem_of_find?_eq_some hf) hname2
  · -- updateCategory rejects a nonempty duplicate name
    intro d id s c n hf hn hne hdiff hdup
    have hb : (strTruthy d.name && (d.name != some c.name)) = true := by
      simp [strTruthy, hn, hne, hdiff]
    cases hfn : findCategoryByName s (d.name.getD "") with
    | none =>
      exfalso
      obtain ⟨c2, hc2, hname2⟩ := hdup
      rw [findCategoryByName, List.find?_eq_none] at hfn
      exact hfn c2 hc2 (by simp [hn, hname2])
    | some c2 => simp [updateCategory, hf, hb, hfn]
  · -- deleteCategory preserves distinct names
    intro id s hnames
    cases hf : findCategoryById s id with
    | none => simpa [deleteCategory, hf] using hnames
    | some c =>
      simp only [deleteCategory, hf]
      unfold catNamesNodup
      exact hnames.sublist (List.Sublist.map _ (List.filter_sublist _))
  · -- createProduct preserves distinct names
    intro p newId now s hnames
    rcases p with m | d
    · exact hnames
    · cases hfc : findCategoryById s d.categoryId with
      | none => simpa [createProduct, hfc] using hnames
      | some c =>
        cases hfn : findProductByName s d.name with
        | some p2 => simpa [createProduct, hfc, hfn] using hnames
        | none =>
          simp only [createProduct, hfc, hfn]
          unfold prodNamesNodup
          simp only [List.map_append, List.map_cons, List.map_nil]
          rw [List.nodup_append]
          refine ⟨hnames, List.nodup_singleton _, ?_⟩
          intro x hx hmem
          simp only [List.mem_singleton] at hmem
          subst hmem
          exact (not_mem_map_of_find?_none hfn) hx
  · -- createProduct rejects a duplicate name
    intro d newId now s hdup hcat
    obtain ⟨c, hfc⟩ : ∃ c, findCategoryById s d.categoryId = some c := by
      cases hfc : findCategoryById s d.categoryId
      · rw [hfc] at hcat; simp at hcat
      · exact ⟨_, rfl⟩
    cases hfn : findProductByName s d.name with
    | none =>
      exfalso
      obtain ⟨p2, hp2, hname2⟩ := hdup
      rw [findProductByName, List.find?_eq_none] at hfn
      exact hfn p2 hp2 (by simp [hname2])
    | some p2 => simp [createProduct, hfc, hfn]
  · -- updateProduct preserves distinct names when the parsed name is nonempty
    intro p id s hids hnames hprov
    rcases p with m | d
    · exact hnames
    · cases hf : findProductById s id with
      | none => simpa [updateProduct, hf] using hnames
      | some pr =>
        simp only [updateProduct, hf]
        by_cases hcat : (match d.categoryId with
            | some cid => (findCategoryById s cid).isNone
            | none => false) = true
        · rw [if_pos hcat]; exact hnames
        · rw [if_neg hcat]
          by_cases hb : (strTruthy d.name && (d.name != some pr.name)) = true
          · rw [if_pos hb]
            obtain ⟨n, hn⟩ : ∃ n, d.name = some n := by
              cases hdn : d.name
              · rw [hdn] at hb; simp [strTruthy] at hb
              · exact ⟨_, rfl⟩
            cases hfn : findProductByName s (d.name.getD "") with
            | some p2 => exact hnames
            | none =>
              unfold prodNamesNodup saveProduct
              rw [List.map_map]
              have hcomp : (Product.name ∘ fun x =>
                  if x.id == (applyProductUpdate pr d).id then applyProductUpdate pr d else x) =
                  (fun x => if x.id == (applyProductUpdate pr d).id
                    then (applyProductUpdate pr d).name else x.name) := by
                funext x
                by_cases hx : (x.id == (applyProductUpdate pr d).id) = true
                · simp [Function.comp, hx]
                · simp [Function.comp, hx]
              rw [hcomp]
              apply nodup_map_keyed_update s.products Product.id Product.name _ _ hids hnames
              have hname2 : (applyProductUpdate pr d).name = n := by
                simp [applyProductUpdate, hn]
              rw [hname2]
              rw [hn] at hfn
              simpa using not_mem_map_of_find?_none hfn
          · rw [if_neg hb]
            have hname2 : (applyProductUpdate pr d).name = pr.name := by
              cases hdn : d.name with
              | none => simp [applyProductUpdate, hdn]
              | some n =>
                have hne : n ≠ "" := hprov d n rfl hdn
                rw [hdn] at hb
                have : n = pr.name := by
                  by_contra hcontra
                  apply hb
                  simp [strTruthy, hne, hcontra]
                simp [applyProductUpdate, hdn, this]
            unfold prodNamesNodup saveProduct
            rw [List.map_map]
            have heq : s.products.map (Product.name ∘ fun x =>
                if x.id == (applyProductUpdate pr d).id then applyProductUpdate pr d else x) =
                s.products.map Product.name := by
              apply List.map_congr_left
              intro x hx
              by_cases hxid : (x.id == (applyProductUpdate pr d).id) = true
              · have hid2 : x.id = pr.id := by simpa [applyProductUpdate] using hxid
                have hxc : x = pr :=
                  List.inj_on_of_nodup_map hids hx (List.mem_of_find?_eq_some hf) hid2
                have hidp : (applyProductUpdate pr d).id = pr.id := rfl
                simp [Function.comp, hxid, hxc, hidp, hname2]
              · simp [Function.comp, hxid]
            rw [heq]
            exact hnames
  · -- deleteProduct preserves distinct names
    intro id s hnames
    cases hf : findProductById s id with
    | none => simpa [deleteProduct, hf] using hnames
    | some p =>
      simp only [deleteProduct, hf]
      unfold prodNamesNodup
      exact hnames.sublist (List.Sublist.map _ (List.filter_sublist _))

theorem name_uniqueness_preserved_witness :
    (createCategory (Except.ok ⟨"x", none, 0, true⟩) 7 dupNameStore).1 =
      errResp 400 "Category with this name already exists" ∧
    (createCategory (Except.ok ⟨"x", none, 0, true⟩) 7 dupNameStore).2 = dupNameStore :=
  name_uniqueness_preserved.2.1 ⟨"x", none, 0, true⟩ 7 dupNameStore (by decide)

/-! ## Claim C3 -/

theorem findCategoryById_mem {s : Store} {cid : Nat} {c : Category}
    (h : findCategoryById s cid = some c) : c ∈ s.categories ∧ c.id = cid := by
  refine ⟨List.mem_of_find?_eq_some h, ?_⟩
  have := List.find?_some h
  simpa using this

/-- C3 counterexample: deleteCategory deletes a category that a stored
product still references, responding 200 and leaving a dangling
categoryId, so the foreign-key invariant is not preserved by every
operation. -/
theorem deleteCategory_leaves_dangling_reference :
    fkCheck danglingFkStore = true ∧
    (deleteCategory 1 danglingFkStore).1.status = 200 ∧
    fkCheck (deleteCategory 1 danglingFkStore).2 = false := by
  refine ⟨by decide, by decide, by decide⟩

/-- C3 (amended): createProduct and updateProduct respond 400 Category not
found without writing when the supplied categoryId does not identify an
existing category (updateProduct once the addressed product exists), and
the invariant that every stored product references an existing category is
preserved by createProduct, updateProduct, deleteProduct, createCategory,
updateCategory and updateOrderStatus — but not by deleteCategory, which
performs no referencing-product check. -/
theorem fk_references_maintained :
    (∀ p newId now s, fkHolds s → fkHolds (createProduct p newId now s).2) ∧
    (∀ d newId now s, findCategoryById s d.categoryId = none →
      (createProduct (Except.ok d) newId now s).1 = errResp 400 "Category not found" ∧
      (createProduct (Except.ok d) newId now s).2 = s) ∧
    (∀ p id s, fkHolds s → fkHolds (updateProduct p id s).2) ∧
    (∀ d id s pr cid, findProductById s id = some pr → d.categoryId = some cid →
      findCategoryById s cid = none →
      (updateProduct (Except.ok d) id s).1 = errResp 400 "Category not found" ∧
      (updateProduct (Except.ok d) id s).2 = s) ∧
    (∀ id s, fkHolds s → fkHolds (deleteProduct id s).2) ∧
    (∀ p newId s, fkHolds s → fkHolds (createCategory p newId s).2) ∧
    (∀ p id s, fkHolds s → fkHolds (updateCategory p id s).2) ∧
    (∀ b id s, fkHolds s → fkHolds (updateOrderStatus b id s).2) := by
  refine ⟨?_, ?_, ?_, ?_, ?_, ?_, ?_, ?_⟩
  · -- createProduct preserves the invariant
    intro p newId now s hfk
    rcases p with m | d
    · exact hfk
    · cases hfc : findCategoryById s d.categoryId with
      | none => simpa [createProduct, hfc] using hfk
      | some c =>
        cases hfn : findProductByName s d.name with
        | some p2 => simpa [createProduct, hfc, hfn] using hfk
        | none =>
          simp only [createProduct, hfc, hfn]
          intro p hp
          simp only [List.mem_append, List.mem_singleton] at hp
          rcases hp with hp | hp
          · exact hfk p hp
          · subst hp
            obtain ⟨hcmem, hcid⟩ := findCategoryById_mem hfc
            exact ⟨c, hcmem, hcid⟩
  · -- createProduct rejects a missing category
    intro d newId now s hfc
    simp [createProduct, hfc]
  · -- updateProduct preserves the invariant
    intro p id s hfk
    rcases p with m | d
    · exact hfk
    · cases hf : findProductById s id with
      | none => simpa [updateProduct, hf] using hfk
      | some pr =>
        simp only [updateProduct, hf]
        by_cases hcat : (match d.categoryId with
            | some cid => (findCategoryById s cid).isNone
            | none => false) = true
        · rw [if_pos hcat]; exact hfk
        · rw [if_neg hcat]
          have hsave : fkHolds (saveProduct s (applyProductUpdate pr d)) := by
            intro p hp
            simp only [saveProduct, List.mem_map] at hp
            obtain ⟨x, hx, hfx⟩ := hp
            by_cases hxid : (x.id == (applyProductUpdate pr d).id) = true
            · rw [if_pos hxid] at hfx
              subst hfx
              cases hdc : d.categoryId with
              | none =>
                have : (applyProductUpdate pr d).categoryId = pr.categoryId := by
                  simp [applyProductUpdate, hdc]
                rw [this]
                exact hfk pr (List.mem_of_find?_eq_some hf)
              | some cid =>
                have hsome : (findCategoryById s cid).isSome = true := by
                  rw [hdc] at hcat
                  simp only [Option.isNone] at hcat
                  cases hfc : findCategoryById s cid
                  · rw [hfc] at hcat; simp at hcat
                  · rfl
                obtain ⟨c, hfc⟩ := Option.isSome_iff_exists.mp hsome
                obtain ⟨hcmem, hcid⟩ := findCategoryById_mem hfc
                have : (applyProductUpdate pr d).categoryId = cid := by
                  simp [applyProductUpdate, hdc]
                rw [this]
                exact ⟨c, hcmem, hcid⟩
            · rw [if_neg hxid] at hfx
              subst hfx
              exact hfk x hx
          by_cases hb : (strTruthy d.name && (d.name != some pr.name)) = true
          · rw [if_pos hb]
            cases hfn : findProductByName s (d.name.getD "") with
            | some p2 => exact hfk
            | none => exact hsave
          · rw [if_neg hb]
            exact hsave
  · -- updateProduct rejects a missing category
    intro d id s pr cid hf hdc hfc
    have hcat : (match d.categoryId with
        | some cid2 => (findCategoryById s cid2).isNone
        | none => false) = true := by
      rw [hdc]
      show (findCategoryById s cid).isNone = true
      rw [hfc]
      rfl
    simp [updateProduct, hf, hcat]
  · -- deleteProduct preserves the invariant
    intro id s hfk
    cases hf : findProductById s id with
    | none => simpa [deleteProduct, hf] using hfk
    | some p =>
      simp only [deleteProduct, hf]
      intro p2 hp2
      exact hfk p2 (List.mem_of_mem_filter hp2)
  · -- createCategory preserves the invariant
    intro p newId s hfk
    rcases p with m | d
    · exact hfk
    · cases hfn : findCategoryByName s d.name with
      | some c => simpa [createCategory, hfn] using hfk
      | none =>
        simp only [createCategory, hfn]
        intro p hp
        obtain ⟨c, hc, hcid⟩ := hfk p hp
        exact ⟨c, List.mem_append_left _ hc, hcid⟩
  · -- updateCategory preserves the invariant (category ids are unchanged)
    intro p id s hfk
    rcases p with m | d
    · exact hfk
    · cases hf : findCategoryById s id with
      | none => simpa [updateCategory, hf] using hfk
      | some c =>
        simp only [updateCategory, hf]
        have hsave : fkHolds (saveCategory s (applyCategoryUpdate c d)) := by
          intro p hp
          obtain ⟨c2, hc2, hcid⟩ := hfk p hp
          by_cases hxid : (c2.id == (applyCategoryUpdate c d).id) = true
          · refine ⟨applyCategoryUpdate c d, ?_, ?_⟩
            · simp only [saveCategory]
              rw [List.mem_map]
              exact ⟨c2, hc2, by rw [if_pos hxid]⟩
            · have heq : c2.id = (applyCategoryUpdate c d).id := by simpa using hxid
              rw [← heq, hcid]
          · refine ⟨c2, ?_, hcid⟩
            simp only [saveCategory]
            rw [List.mem_map]
            exact ⟨c2, hc2, by rw [if_neg hxid]⟩
        by_cases hb : (strTruthy d.name && (d.name != some c.name)) = true
        · rw [if_pos hb]
          cases hfn : findCategoryByName s (d.name.getD "") with
          | some c2 => exact hfk
          | none => exact hsave
        · rw [if_neg hb]
          exact hsave
  · -- updateOrderStatus never touches products or categories
    intro b id s hfk
    cases hp : parseOrderStatus b with
    | error m => simpa [updateOrderStatus, hp] using hfk
    | ok st =>
      cases hf : findOrderById s id with
      | none => simpa [updateOrderStatus, hp, hf] using hfk
      | some o => simpa [updateOrderStatus, hp, hf] using hfk

theorem fk_references_maintained_witness :
    fkHolds (createProduct
      (Except.ok ⟨"pea", 1, ["img"], none, [⟨"kg", 1, 1, 2, none, 5⟩], none, true⟩)
      11 0 danglingFkStore).2 :=
  fk_references_maintained.1
    (Except.ok ⟨"pea", 1, ["img"], none, [⟨"kg", 1, 1, 2, none, 5⟩], none, true⟩)
    11 0 danglingFkStore (by unfold fkHolds; decide)

/-! ## Claim C4 -/

theorem findUserByEmail_eq_some {s : Store} {e : String} {u : User}
    (hnd : emailsNodup s) (hu : u ∈ s.users) (he : u.email = e) :
    findUserByEmail s e = some u := by
  cases hf : findUserByEmail s e with
  | none =>
    exfalso
    rw [findUserByEmail, List.find?_eq_none] at hf
    exact hf u hu (by simp [he])
  | some u2 =>
    have h2 : u2 ∈ s.users := List.mem_of_find?_eq_some hf
    have h3 : u2.email = e := by simpa using List.find?_some hf
    have : u2 = u := List.inj_on_of_nodup_map hnd h2 hu (h3.trans he.symm)
    rw [this]

/-- C4 counterexample: a user with the submitted email exists but has a
non-admin role, and the submitted password does not match the stored hash;
the controller checks the role before the password, so the response is
403 Admin access required, not the 401 Invalid credentials the claim
assigns to every wrong password. -/
theorem adminLogin_wrong_password_non_admin_gets_403 :
    ((fun p h : String => p == h) "wrong" "secret") = false ∧
    (∃ u ∈ customerStore.users, u.email = "bob@x.com") ∧
    (adminLogin (Except.ok ⟨"bob@x.com", "wrong"⟩) (fun p h : String => p == h)
      (some "jwtsecret") customerStore).1.status = 403 ∧
    (adminLogin (Except.ok ⟨"bob@x.com", "wrong"⟩) (fun p h : String => p == h)
      (some "jwtsecret") customerStore).1.status ≠ 401 := by
  refine ⟨by decide,
    ⟨⟨1, "Bob", "bob@x.com", some "secret", "customer", none⟩, by decide, rfl⟩,
    by decide, by decide⟩

/-- C4 (amended): with JWT_SECRET configured and user emails distinct,
adminLogin issues tokens signed with the secret and carrying the user id
exactly when the user with the submitted email exists, has a truthy
password hash, has role admin, and bcrypt accepts the password; a missing
user or hash yields 401 Invalid credentials; a non-admin role yields
403 Admin access required regardless of the password, because the role is
checked before the password; a wrong password for an admin user yields
401; and no failure path issues a token. -/
theorem adminLogin_correct (cmp : String → String → Bool) (sec : String)
    (s : Store) (d : AdminLoginInput) (hnd : emailsNodup s) :
    ((∃ u ∈ s.users, u.email = d.email ∧ strTruthy u.passwordHash = true ∧
        u.role = "admin" ∧ cmp d.password (u.passwordHash.getD "") = true) ↔
      ((adminLogin (Except.ok d) cmp (some sec) s).1 = ok200 ∧
        (adminLogin (Except.ok d) cmp (some sec) s).2.isSome = true)) ∧
    (∀ u ∈ s.users, u.email = d.email → ∀ t1 t2,
      (adminLogin (Except.ok d) cmp (some sec) s).2 = some (t1, t2) →
      t1.secret = sec ∧ t2.secret = sec ∧ t1.userId = u.id ∧ t2.userId = u.id ∧
      t1.expiresIn = "1d" ∧ t2.expiresIn = "30d") ∧
    ((∀ u ∈ s.users, u.email ≠ d.email) →
      (adminLogin (Except.ok d) cmp (some sec) s).1 = errResp 401 "Invalid credentials" ∧
      (adminLogin (Except.ok d) cmp (some sec) s).2 = none) ∧
    (∀ u ∈ s.users, u.email = d.email → strTruthy u.passwordHash = false →
      (adminLogin (Except.ok d) cmp (some sec) s).1 = errResp 401 "Invalid credentials" ∧
      (adminLogin (Except.ok d) cmp (some sec) s).2 = none) ∧
    (∀ u ∈ s.users, u.email = d.email → strTruthy u.passwordHash = true →
      u.role ≠ "admin" →
      (adminLogin (Except.ok d) cmp (some sec) s).1 = errResp 403 "Admin access required" ∧
      (adminLogin (Except.ok d) cmp (some sec) s).2 = none) ∧
    (∀ u ∈ s.users, u.email = d.email → strTruthy u.passwordHash = true →
      u.role = "admin" → cmp d.password (u.passwordHash.getD "") = false →
      (adminLogin (Except.ok d) cmp (some sec) s).1 = errResp 401 "Invalid credentials" ∧
      (adminLogin (Except.ok d) cmp (some sec) s).2 = none) ∧
    ((adminLogin (Except.ok d) cmp (some sec) s).1.status ≠ 200 →
      (adminLogin (Except.ok d) cmp (some sec) s).2 = none) := by
  refine ⟨⟨?_, ?_⟩, ?_, ?_, ?_, ?_, ?_, ?_⟩
  · -- valid credentials produce a 200 with tokens
    rintro ⟨u, hu, he, ht, hr, hc⟩
    simp [adminLogin, findUserByEmail_eq_some hnd hu he, ht, hr, hc, generateTokens]
  · -- a 200 with tokens implies valid credentials
    rintro ⟨h1, h2⟩
    cases hf : findUserByEmail s d.email with
    | none => simp [adminLogin, hf, errResp, ok200] at h1
    | some u =>
      by_cases ht : strTruthy u.passwordHash = true
      · by_cases hr : u.role = "admin"
        · by_cases hc : cmp d.password (u.passwordHash.getD "") = true
          · exact ⟨u, List.mem_of_find?_eq_some hf,
              by simpa using List.find?_some hf, ht, hr, hc⟩
          · exfalso
            have hc2 : cmp d.password (u.passwordHash.getD "") = false := by
              simpa using hc
            simp [adminLogin, hf, ht, hr, hc2, errResp, ok200] at h1
        · exfalso
          simp [adminLogin, hf, ht, hr, errResp, ok200] at h1
      · exfalso
        have ht2 : strTruthy u.passwordHash = false := by simpa using ht
        simp [adminLogin, hf, ht2, errResp, ok200] at h1
  · -- tokens carry the secret and the user id
    intro u hu he t1 t2 htok
    have hf : findUserByEmail s d.email = some u := findUserByEmail_eq_some hnd hu he
    by_cases ht : strTruthy u.passwordHash = true
    · by_cases hr : u.role = "admin"
      · by_cases hc : cmp d.password (u.passwordHash.getD "") = true
        · have hpair : (adminLogin (Except.ok d) cmp (some sec) s).2 =
              some (⟨sec, u.id, "1d"⟩, ⟨sec, u.id, "30d"⟩) := by
            simp [adminLogin, hf, ht, hr, hc, generateTokens]
          rw [hpair] at htok
          injection htok with htok
          rw [Prod.mk.injEq] at htok
          obtain ⟨h1, h2⟩ := htok
          rw [← h1, ← h2]
          exact ⟨rfl, rfl, rfl, rfl, rfl, rfl⟩
        · exfalso
          have hc2 : cmp d.password (u.passwordHash.getD "") = false := by simpa using hc
          simp [adminLogin, hf, ht, hr, hc2] at htok
      · exfalso
        simp [adminLogin, hf, ht, hr] at htok
    · exfalso
      have ht2 : strTruthy u.passwordHash = false := by simpa using ht
      simp [adminLogin, hf, ht2] at htok
  · -- no user with the email: 401
    intro hnone
    have hf : findUserByEmail s d.email = none := by
      rw [findUserByEmail, List.find?_eq_none]
      intro u hu
      simp [hnone u hu]
    simp [adminLogin, hf]
  · -- user without a truthy hash: 401
    intro u hu he ht
    have hf : findUserByEmail s d.email = some u := findUserByEmail_eq_some hnd hu he
    simp [adminLogin, hf, ht]
  · -- non-admin role: 403, before any password comparison
    intro u hu he ht hr
    have hf : findUserByEmail s d.email = some u := findUserByEmail_eq_some hnd hu he
    simp [adminLogin, hf, ht, hr]
  · -- admin with a wrong password: 401
    intro u hu he ht hr hc
    have hf : findUserByEmail s d.email = some u := findUserByEmail_eq_some hnd hu he
    simp [adminLogin, hf, ht, hr, hc]
  · -- every failure path issues no token
    intro hstat
    cases hf : findUserByEmail s d.email with
    | none => simp [adminLogin, hf]
    | some u =>
      by_cases ht : strTruthy u.passwordHash = true
      · by_cases hr : u.role = "admin"
        · by_cases hc : cmp d.password (u.passwordHash.getD "") = true
          · exfalso
            apply hstat
            simp [adminLogin, hf, ht, hr, hc, generateTokens, ok200]
          · have hc2 : cmp d.password (u.passwordHash.getD "") = false := by simpa using hc
            simp [adminLogin, hf, ht, hr, hc2]
        · simp [adminLogin, hf, ht, hr]
      · have ht2 : strTruthy u.passwordHash = false := by simpa using ht
        simp [adminLogin, hf, ht2]

theorem adminLogin_correct_witness :
    (adminLogin (Except.ok ⟨"ada@x.com", "pw"⟩) (fun p h : String => p == h)
      (some "jwtsecret") adminStore).1 = ok200 ∧
    (adminLogin (Except.ok ⟨"ada@x.com", "pw"⟩) (fun p h : String => p == h)
      (some "jwtsecret") adminStore).2.isSome = true :=
  (adminLogin_correct (fun p h : String => p == h) "jwtsecret" adminStore
      ⟨"ada@x.com", "pw"⟩ (by unfold emailsNodup; decide)).1.mp
    ⟨⟨1, "Ada", "ada@x.com", some "pw", "admin", none⟩, by decide, rfl, by decide, rfl, by decide⟩

end VeggieAdmin
